import Mathlib

/-!
Shallow embedding of the transactional catalog-versioning subsystem of
`src/src/catalog/catalog_set.cpp` (classes `CatalogEntryMap` and `CatalogSet`).

A version chain is modelled as a `List CatalogEntry`, newest (chain head) first;
the `child` link of the C++ node corresponds to the next element of the list,
the `parent` link to the previous one.  The `CatalogEntryMap` (the case-insensitive
name → chain directory) is modelled as an association list with unique keys;
case-insensitive keys are modelled as already-normalized strings (no claim
examines case variants).  C++ node references are modelled as a pair of the
chain's name and the node's index in the chain.  External collaborators
(DependencyManager, the client context, the undo-log sink of `DuckTransaction`)
are modelled by their observable effects only: dependency-manager calls mutate
no catalog-set state, and undo-log pushes are collected in a result field.
-/

namespace CatalogSpec

/-- Catalog object kind tags (`CatalogType`); only the constructors the
catalog-set code inspects are distinguished, plus representative others. -/
inductive CatalogType where
  | invalid
  | table
  | schema
  | view
  | renamedEntry
  | deletedEntry
  | dependencyEntry
  | dependencySet
  deriving DecidableEq, Repr

/-- Modelled from the spec: the reserved threshold separating committed wall
timestamps (below) from transaction-local uncommitted ids (at/above); the
numeric constant `TRANSACTION_ID_START` lives in a header outside `src/`. -/
def TRANSACTION_ID_START : Nat := 4611686018427388000

/-- Modelled from the spec: the implicit default-schema name (`DEFAULT_SCHEMA`
constant, defined in a header outside `src/`). -/
def DEFAULT_SCHEMA : String := "main"

/-- One version node (`CatalogEntry`): name, kind tag, flags, timestamp.
Chain links and the owning-set back-pointer are represented by the node's
position in its chain inside the directory, not stored in the node. -/
structure CatalogEntry where
  name : String
  type : CatalogType
  internal : Bool
  temporary : Bool
  deleted : Bool
  timestamp : Nat
  deriving DecidableEq, Repr

/-- `IsDependencyEntry` (catalog_set.cpp line 87). -/
def IsDependencyEntry (entry : CatalogEntry) : Bool :=
  entry.type == CatalogType.dependencyEntry || entry.type == CatalogType.dependencySet

/-- Error taxonomy: which C++ exception type an operation raises.
`internalErr` = `InternalException` (invariant violation),
`invalidInput` = `InvalidInputException`,
`transactionConflict` = `TransactionException`,
`catalogErr` = `CatalogException`. -/
inductive CatalogError where
  | internalErr (msg : String)
  | invalidInput (msg : String)
  | transactionConflict (msg : String)
  | catalogErr (msg : String)
  deriving DecidableEq, Repr

/-- `CatalogTransaction`: the snapshot a caller supplies.  `hasTransaction`
models whether `transaction.transaction` (the undo-log sink) is non-null;
`hasContext` models whether `transaction.context` is non-null. -/
structure CatalogTransaction where
  transaction_id : Nat
  start_time : Nat
  hasTransaction : Bool
  hasContext : Bool
  deriving DecidableEq, Repr

/-- The external `DefaultGenerator` collaborator, modelled from the spec (§6):
`CreateDefaultEntry(context, name)` is a pure name → optional-object table,
plus the one-shot `created_all_entries` flag the core toggles. -/
structure DefaultGenerator where
  entryTable : List (String × CatalogEntry)
  created_all_entries : Bool
  deriving DecidableEq, Repr

/-- The name → version-chain directory (`CatalogEntryMap::entries`). -/
abbrev Dir := List (String × List CatalogEntry)

/-- The state of one `CatalogSet` together with the two catalog flags the
operations consult (`catalog.IsSystemCatalog()` / `catalog.IsTemporaryCatalog()`). -/
structure CatalogSetState where
  entries : Dir
  defaults : Option DefaultGenerator
  isSystemCatalog : Bool
  isTemporaryCatalog : Bool
  deriving DecidableEq, Repr

/-- `CatalogEntryMap::GetEntry` (line 72): look the name up, returning the
whole chain (the C++ returns a pointer to its head node, which owns the rest). -/
def mapGetEntry : Dir → String → Option (List CatalogEntry)
  | [], _ => none
  | kv :: rest, n => if kv.fst = n then some kv.snd else mapGetEntry rest n

/-- Replace the chain stored under a name (helper for `UpdateEntry`). -/
def dirReplace : Dir → String → List CatalogEntry → Dir
  | [], _, _ => []
  | kv :: rest, n, c => if kv.fst = n then (n, c) :: rest else kv :: dirReplace rest n c

/-- `CatalogEntryMap::AddEntry` (line 18): insert a brand-new chain; an
`InternalException` if the name is already present. -/
def mapAddEntry (m : Dir) (entry : CatalogEntry) : Except CatalogError Dir :=
  match mapGetEntry m entry.name with
  | some _ => .error (.internalErr ("Entry with name \"" ++ entry.name ++ "\" already exists"))
  | none => .ok (m ++ [(entry.name, [entry])])

/-- `CatalogEntryMap::UpdateEntry` (line 27): the new entry becomes the head,
the existing head becomes its child; an `InternalException` if no chain exists. -/
def mapUpdateEntry (m : Dir) (entry : CatalogEntry) : Except CatalogError Dir :=
  match mapGetEntry m entry.name with
  | none => .error (.internalErr ("Entry with name \"" ++ entry.name ++ "\" does not exist"))
  | some chain => .ok (dirReplace m entry.name (entry :: chain))

/-- `CatalogEntryMap::DropEntry` (line 44) on the node at index `i` of the
chain stored under `n`: head nodes are replaced by their child (the key is
erased when no child remains), interior nodes are spliced out. -/
def mapDropEntryAt : Dir → String → Nat → Dir
  | [], _, _ => []
  | kv :: rest, n, i =>
    if kv.fst = n then
      (let c := kv.snd.eraseIdx i
       if c.isEmpty then rest else (n, c) :: rest)
    else kv :: mapDropEntryAt rest n i

/-- `CatalogSet::HasConflict` (line 388). -/
def HasConflict (transaction : CatalogTransaction) (timestamp : Nat) : Bool :=
  (decide (timestamp ≥ TRANSACTION_ID_START) && decide (timestamp ≠ transaction.transaction_id)) ||
  (decide (timestamp < TRANSACTION_ID_START) && decide (timestamp > transaction.start_time))

/-- `CatalogSet::UseTimestamp` (line 393). -/
def UseTimestamp (transaction : CatalogTransaction) (timestamp : Nat) : Bool :=
  decide (timestamp = transaction.transaction_id) || decide (timestamp < transaction.start_time)

/-- `CatalogSet::GetEntryForTransaction` (line 405): walk from the head toward
older versions (child links) while the current node has a child, stopping at
the first node whose timestamp the snapshot uses; the last node of the chain
is returned even when its timestamp is not usable.  The empty chain (never
stored by the directory) maps to `none`. -/
def GetEntryForTransaction (transaction : CatalogTransaction) :
    List CatalogEntry → Option CatalogEntry
  | [] => none
  | [e] => some e
  | e :: e' :: rest =>
    if UseTimestamp transaction e.timestamp then some e
    else GetEntryForTransaction transaction (e' :: rest)

/-- `CatalogSet::GetCommittedEntry` (line 416): walk from the head toward older
versions, stopping at the first node with a committed timestamp; the last node
of the chain is returned even when uncommitted. -/
def GetCommittedEntry : List CatalogEntry → Option CatalogEntry
  | [] => none
  | [e] => some e
  | e :: e' :: rest =>
    if decide (e.timestamp < TRANSACTION_ID_START) then some e
    else GetCommittedEntry (e' :: rest)

/-- `CatalogSet::CreateEntryInternal` (line 443): fails (returns `none`,
unchanged state) if a chain already exists for the entry's name; otherwise
stores it as a fresh chain with timestamp 0. -/
def CreateEntryInternal (st : CatalogSetState) (entry : CatalogEntry) :
    Option CatalogEntry × CatalogSetState :=
  match mapGetEntry st.entries entry.name with
  | some _ => (none, st)
  | none =>
    let e0 := { entry with timestamp := 0 }
    (some e0, { st with entries := st.entries ++ [(e0.name, [e0])] })

/-- `CatalogSet::CreateDefaultEntry` (line 458).  The branch where
`CreateEntryInternal` fails re-reads the entry through `GetEntry`; that retry
is only reachable when another session created the entry inside the unlocked
window, which has no counterpart in this sequential model, so the retry is
modelled by the directory walk `GetEntry` would perform (and by `none` when
even that finds no chain, where the C++ would recurse forever). -/
def CreateDefaultEntry (transaction : CatalogTransaction) (st : CatalogSetState)
    (name : String) : Option CatalogEntry × CatalogSetState :=
  match st.defaults with
  | none => (none, st)
  | some gen =>
    if gen.created_all_entries then (none, st)
    else if !transaction.hasContext then (none, st)
    else
      match gen.entryTable.lookup name with
      | none => (none, st)
      | some entry =>
        match CreateEntryInternal st entry with
        | (some result, st') => (some result, st')
        | (none, st') =>
          match mapGetEntry st'.entries name with
          | some chain =>
            (match GetEntryForTransaction transaction chain with
             | some current => (if current.deleted then none else some current, st')
             | none => (none, st'))
          | none => (none, st')

/-- `CatalogSet::GetEntry` (line 491): resolve the chain head through the
visibility walk, hiding tombstones; on a missing chain, attempt lazy default
materialization.  Returns the result together with the possibly-extended state. -/
def GetEntry (transaction : CatalogTransaction) (st : CatalogSetState)
    (name : String) : Option CatalogEntry × CatalogSetState :=
  match mapGetEntry st.entries name with
  | some chain =>
    (match GetEntryForTransaction transaction chain with
     | some current => (if current.deleted then none else some current, st)
     | none => (none, st))
  | none => CreateDefaultEntry transaction st name

/-- The validation prologue of `CatalogSet::CreateEntry` (lines 93–111); the
nested C++ `if`s are flattened, each guard carrying its enclosing conditions. -/
def validateCreateEntry (st : CatalogSetState) (name : String) (value : CatalogEntry) :
    Except CatalogError Unit :=
  if value.internal && !st.isSystemCatalog && name != DEFAULT_SCHEMA then
    .error (.internalErr ("Attempting to create internal entry \"" ++ name ++
      "\" in non-system catalog - internal entries can only be created in the system catalog"))
  else if !value.internal && !value.temporary && st.isSystemCatalog && !IsDependencyEntry value then
    .error (.internalErr ("Attempting to create non-internal entry \"" ++ name ++
      "\" in system catalog - the system catalog can only contain internal entries"))
  else if !value.internal && value.temporary && !st.isTemporaryCatalog then
    .error (.internalErr ("Attempting to create temporary entry \"" ++ name ++
      "\" in non-temporary catalog"))
  else if !value.internal && !value.temporary && st.isTemporaryCatalog && name != DEFAULT_SCHEMA then
    .error (.invalidInput ("Cannot create non-temporary entry \"" ++ name ++
      "\" in temporary catalog"))
  else .ok ()

instance {ε α : Type} [DecidableEq ε] [DecidableEq α] : DecidableEq (Except ε α) := fun x y =>
  match x, y with
  | .ok a, .ok b =>
    if h : a = b then isTrue (by rw [h]) else isFalse (fun hc => by cases hc; exact h rfl)
  | .error a, .error b =>
    if h : a = b then isTrue (by rw [h]) else isFalse (fun hc => by cases hc; exact h rfl)
  | .ok _, .error _ => isFalse (fun hc => by cases hc)
  | .error _, .ok _ => isFalse (fun hc => by cases hc)

/-- Result of a mutating catalog-set operation: the C++ return value or thrown
exception, the state after the operation (mutations before a throw persist),
and the version nodes pushed to the transaction's undo log, in order. -/
structure MutationResult where
  result : Except CatalogError Bool
  state : CatalogSetState
  undoLog : List CatalogEntry
  deriving DecidableEq, Repr

/-- The publication tail shared by `CatalogSet::CreateEntry` (lines 161–168)
and `CatalogSet::DropEntryInternal` (lines 345–353): `map.UpdateEntry(value)`,
then push `value`'s child (the superseded chain head) to the undo log when the
snapshot carries an active transaction, and return `true`. -/
def publishEntry (transaction : CatalogTransaction) (st : CatalogSetState)
    (value : CatalogEntry) : MutationResult :=
  match mapGetEntry st.entries value.name with
  | none =>
    ⟨.error (.internalErr ("Entry with name \"" ++ value.name ++ "\" does not exist")), st, []⟩
  | some chain =>
    ⟨.ok true, { st with entries := dirReplace st.entries value.name (value :: chain) },
      if transaction.hasTransaction then chain.take 1 else []⟩

/-- The placeholder tombstone `CreateEntry` inserts at the bottom of a brand-new
chain (lines 140–145): `InCatalogEntry(CatalogType::INVALID, catalog, name)`
with timestamp 0 and `deleted = true`; a freshly constructed entry is neither
internal nor temporary. -/
def dummyNode (name : String) : CatalogEntry :=
  { name := name, type := CatalogType.invalid, internal := false, temporary := false,
    deleted := true, timestamp := 0 }

/-- `CatalogSet::CreateEntry` (line 91).  The dependency-manager `AddObject`
call touches no catalog-set state and is modelled as a no-op. -/
def CreateEntry (transaction : CatalogTransaction) (st : CatalogSetState)
    (name : String) (value : CatalogEntry) : MutationResult :=
  match validateCreateEntry st name value with
  | .error e => ⟨.error e, st, []⟩
  | .ok _ =>
    let value := { value with timestamp := transaction.transaction_id }
    match mapGetEntry st.entries name with
    | none =>
      match CreateDefaultEntry transaction st name with
      | (some _, st') => ⟨.ok false, st', []⟩
      | (none, st') =>
        match mapAddEntry st'.entries (dummyNode name) with
        | .error e => ⟨.error e, st', []⟩
        | .ok dir1 => publishEntry transaction { st' with entries := dir1 } value
    | some chain =>
      match chain with
      | [] => ⟨.error (.internalErr "empty chain"), st, []⟩
      | current :: _ =>
        if HasConflict transaction current.timestamp then
          ⟨.error (.transactionConflict ("Catalog write-write conflict on create with \"" ++
            current.name ++ "\"")), st, []⟩
        else if !current.deleted then ⟨.ok false, st, []⟩
        else publishEntry transaction st value

/-- `CatalogSet::GetEntryInternal` on an entry (line 176): a
`TransactionException` when the head's timestamp conflicts with the snapshot,
`none` when the (non-conflicting) head is a tombstone, the head otherwise. -/
def GetEntryInternalEntry (transaction : CatalogTransaction) (catalog_entry : CatalogEntry) :
    Except CatalogError (Option CatalogEntry) :=
  if HasConflict transaction catalog_entry.timestamp then
    .error (.transactionConflict ("Catalog write-write conflict on alter with \"" ++
      catalog_entry.name ++ "\""))
  else if catalog_entry.deleted then .ok none
  else .ok (some catalog_entry)

/-- `CatalogSet::GetEntryInternal` on a name (line 192). -/
def GetEntryInternalByName (transaction : CatalogTransaction) (st : CatalogSetState)
    (name : String) : Except CatalogError (Option CatalogEntry) :=
  match mapGetEntry st.entries name with
  | none => .ok none
  | some [] => .ok none
  | some (current :: _) => GetEntryInternalEntry transaction current

/-- `CatalogSet::DropEntryInternal` (line 326): resolve the head (conflict
check included), reject internal entries unless permitted, publish a tombstone
of the given type as the new head. -/
def DropEntryInternal (transaction : CatalogTransaction) (st : CatalogSetState)
    (name : String) (allow_drop_internal : Bool) (tombstone_type : CatalogType) :
    MutationResult :=
  match GetEntryInternalByName transaction st name with
  | .error e => ⟨.error e, st, []⟩
  | .ok none => ⟨.ok false, st, []⟩
  | .ok (some entry) =>
    if entry.internal && !allow_drop_internal then
      ⟨.error (.catalogErr ("Cannot drop entry \"" ++ entry.name ++
        "\" because it is an internal system entry")), st, []⟩
    else
      publishEntry transaction st
        { name := entry.name, type := tombstone_type, internal := false, temporary := false,
          deleted := true, timestamp := transaction.transaction_id }

/-- `CatalogSet::DropEntry` (line 356) composed with `DropDependencies`
(line 310); the dependency manager's `DropObject` is a no-op on this set's
state.  The tombstone type is the header default `CatalogType::DELETED_ENTRY`
(modelled from the spec: "publishes a plain tombstone"). -/
def DropEntry (transaction : CatalogTransaction) (st : CatalogSetState) (name : String)
    (allow_drop_internal : Bool) : MutationResult :=
  match GetEntry transaction st name with
  | (none, st') => ⟨.ok false, st', []⟩
  | (some entry, st') =>
    if entry.internal && !allow_drop_internal then
      ⟨.error (.catalogErr ("Cannot drop entry \"" ++ entry.name ++
        "\" because it is an internal system entry")), st', []⟩
    else DropEntryInternal transaction st' name allow_drop_internal CatalogType.deletedEntry

/-- The alter request: `allow_internal` is `AlterInfo::allow_internal`; the
object's own alter capability (`entry->AlterEntry(context, alter_info)`,
virtual per object kind and out of scope) is passed as `alterFn`, returning
the replacement object or `none` to decline. -/
structure AlterInfo where
  allow_internal : Bool
  deriving DecidableEq, Repr

/-- Result of `AlterEntry`: additionally records whether `UndoAlter` was
invoked on the source object before an error was raised. -/
structure AlterResult where
  result : Except CatalogError Bool
  state : CatalogSetState
  undoLog : List CatalogEntry
  undoAlterCalled : Bool
  deriving DecidableEq, Repr

/-- `CatalogSet::AlterEntry` (line 216).  The serialized alter payload attached
to the undo-log push is not modelled (only the pushed node is); the
dependency-manager `AlterObject` call after publication mutates no catalog-set
state and is modelled as a no-op. -/
def AlterEntry (transaction : CatalogTransaction) (st : CatalogSetState) (name : String)
    (alter_info : AlterInfo) (alterFn : CatalogEntry → Option CatalogEntry) : AlterResult :=
  match GetEntryInternalByName transaction st name with
  | .error e => ⟨.error e, st, [], false⟩
  | .ok none => ⟨.ok false, st, [], false⟩
  | .ok (some entry) =>
    if !alter_info.allow_internal && entry.internal then
      ⟨.error (.catalogErr ("Cannot alter entry \"" ++ entry.name ++
        "\" because it is an internal system entry")), st, [], false⟩
    else
      let original_name := entry.name
      if !transaction.hasContext then
        ⟨.error (.internalErr "Cannot AlterEntry without client context"), st, [], false⟩
      else
        match alterFn entry with
        | none => ⟨.ok true, st, [], false⟩
        | some v =>
          let value := { v with timestamp := transaction.transaction_id }
          if value.name ≠ original_name then
            -- rename path
            let collision :=
              match mapGetEntry st.entries value.name with
              | some destChain =>
                (match GetEntryForTransaction transaction destChain with
                 | some original_entry => !original_entry.deleted
                 | none => false)
              | none => false
            if collision then
              ⟨.error (.catalogErr ("Could not rename \"" ++ original_name ++ "\" to \"" ++
                value.name ++ "\": another entry with this name already exists!")), st, [], true⟩
            else
              let dropRes := DropEntryInternal transaction st original_name false
                CatalogType.renamedEntry
              match dropRes.result with
              | .error e => ⟨.error e, dropRes.state, dropRes.undoLog, false⟩
              | .ok _ =>
                let renamed_node : CatalogEntry :=
                  { name := value.name, type := CatalogType.renamedEntry, internal := false,
                    temporary := false, deleted := false,
                    timestamp := transaction.transaction_id }
                let createRes := CreateEntry transaction dropRes.state value.name renamed_node
                let log1 := dropRes.undoLog ++ createRes.undoLog
                match createRes.result with
                | .error e => ⟨.error e, createRes.state, log1, false⟩
                | .ok _ =>
                  match GetEntryInternalByName transaction createRes.state value.name with
                  | .error e => ⟨.error e, createRes.state, log1, false⟩
                  | .ok _ =>
                    match mapUpdateEntry createRes.state.entries value with
                    | .error e => ⟨.error e, createRes.state, log1, false⟩
                    | .ok dir2 =>
                      let oldHead :=
                        match mapGetEntry createRes.state.entries value.name with
                        | some c => c.take 1
                        | none => []
                      ⟨.ok true, { createRes.state with entries := dir2 },
                        log1 ++ (if transaction.hasTransaction then oldHead else []), false⟩
          else
            match mapUpdateEntry st.entries value with
            | .error e => ⟨.error e, st, [], false⟩
            | .ok dir2 =>
              let oldHead :=
                match mapGetEntry st.entries value.name with
                | some c => c.take 1
                | none => []
              ⟨.ok true, { st with entries := dir2 },
                (if transaction.hasTransaction then oldHead else []), false⟩

/-- `CatalogSet::Undo` (line 520) on the node at index `i` of the chain stored
under `name` (the node handed back from the undo log).  `entry.Parent()` is
dereferenced unconditionally, so a node with no parent (`i = 0`) or a dangling
reference maps to `none` (undefined behaviour); `SetAsRoot` is ownership
bookkeeping with no directory effect, and `catalog.ModifyCatalog()` is external. -/
def Undo (st : CatalogSetState) (name : String) (i : Nat) : Option CatalogSetState :=
  match mapGetEntry st.entries name with
  | none => none
  | some chain =>
    match i with
    | 0 => none
    | j + 1 =>
      match chain.get? (j + 1) with
      | none => none
      | some entry =>
        -- to_be_removed_node = entry.Parent(), at index j; after it is dropped,
        -- entry sits at index j
        let st1 := { st with entries := mapDropEntryAt st.entries name j }
        if entry.type = CatalogType.invalid then
          some { st1 with entries := mapDropEntryAt st1.entries name j }
        else some st1

/-- `CatalogSet::CleanupEntry` (line 373) on the node at index `i` of the chain
stored under `name`.  `catalog_entry.Parent()` is dereferenced unconditionally,
so a node with no parent (`i = 0`) or a dangling reference maps to `none`
(undefined behaviour).  After the node is dropped its parent has a child iff
the dropped node had one (`i + 1 < chain.length`), and has a parent iff
`i - 1 > 0`. -/
def CleanupEntry (st : CatalogSetState) (name : String) (i : Nat) : Option CatalogSetState :=
  match mapGetEntry st.entries name with
  | none => none
  | some chain =>
    match i with
    | 0 => none
    | j + 1 =>
      match chain.get? j, chain.get? (j + 1) with
      | some parent, some _ =>
        let st1 := { st with entries := mapDropEntryAt st.entries name (j + 1) }
        if parent.deleted ∧ chain.length ≤ j + 2 ∧ j = 0 then
          some { st1 with entries := mapDropEntryAt st1.entries parent.name j }
        else some st1
      | _, _ => none

/-- The untransacted `CatalogSet::Scan` (line 586), returning the sequence of
entries handed to the callback: per chain, `GetCommittedEntry` of the head,
visited iff non-deleted. -/
def ScanCommitted (st : CatalogSetState) : List CatalogEntry :=
  st.entries.filterMap (fun kv =>
    match GetCommittedEntry kv.snd with
    | none => none
    | some committed_entry => if committed_entry.deleted then none else some committed_entry)

/-- The transaction-scoped `CatalogSet::Scan` (line 568), with defaults already
materialized (`CreateDefaultEntries` is not modelled separately): per chain,
the visibility walk, visited iff non-deleted. -/
def ScanTransaction (transaction : CatalogTransaction) (st : CatalogSetState) :
    List CatalogEntry :=
  st.entries.filterMap (fun kv =>
    match GetEntryForTransaction transaction kv.snd with
    | none => none
    | some e => if e.deleted then none else some e)

/-- The spec's visibility predicate, in the spec's own words: a version is
visible iff its timestamp equals the snapshot's transaction id (self-authored)
or it is committed (below the reserved threshold) strictly before the
snapshot's start time. -/
def specVisible (transaction : CatalogTransaction) (v : CatalogEntry) : Bool :=
  decide (v.timestamp = transaction.transaction_id) ||
  (decide (v.timestamp < TRANSACTION_ID_START) && decide (v.timestamp < transaction.start_time))

/-- Claim C7's validation condition, following the claim's words: internal
outside the system catalog except the default schema; non-internal
non-temporary in the system catalog and not dependency bookkeeping; or
temporary in a non-temporary catalog. -/
def c7ClaimedViolation (st : CatalogSetState) (name : String) (value : CatalogEntry) : Bool :=
  (value.internal && !st.isSystemCatalog && name != DEFAULT_SCHEMA) ||
  (!value.internal && !value.temporary && st.isSystemCatalog && !IsDependencyEntry value) ||
  (value.temporary && !st.isTemporaryCatalog)

/-- The amended validation condition read off the source: clause three of the
claim additionally requires the candidate to be non-internal, and a fourth
(invalid-input, `InvalidInputException`) clause rejects non-internal
non-temporary candidates in a temporary catalog except the default schema. -/
def validationViolationAmended (st : CatalogSetState) (name : String)
    (value : CatalogEntry) : Bool :=
  (value.internal && !st.isSystemCatalog && name != DEFAULT_SCHEMA) ||
  (!value.internal && !value.temporary && st.isSystemCatalog && !IsDependencyEntry value) ||
  (!value.internal && value.temporary && !st.isTemporaryCatalog) ||
  (!value.internal && !value.temporary && st.isTemporaryCatalog && name != DEFAULT_SCHEMA)

/-- The invariant-violation (`InternalException`) clauses of the amended
validation condition: internal outside the system catalog except the default
schema; non-internal non-temporary in the system catalog and not dependency
bookkeeping; or non-internal temporary in a non-temporary catalog. -/
def invariantViolationAmended (st : CatalogSetState) (name : String)
    (value : CatalogEntry) : Bool :=
  (value.internal && !st.isSystemCatalog && name != DEFAULT_SCHEMA) ||
  (!value.internal && !value.temporary && st.isSystemCatalog && !IsDependencyEntry value) ||
  (!value.internal && value.temporary && !st.isTemporaryCatalog)

/-- The invalid-input (`InvalidInputException`) clause of the amended
validation condition: a non-internal non-temporary candidate in a temporary
catalog whose name is not the default schema. -/
def invalidInputViolationAmended (st : CatalogSetState) (name : String)
    (value : CatalogEntry) : Bool :=
  !value.internal && !value.temporary && st.isTemporaryCatalog && name != DEFAULT_SCHEMA

/-- Claim C8's per-chain visit rule, following the claim's words: the visitor
is invoked on the newest version that has a committed timestamp and is
non-deleted, and on nothing when the chain has no such version. -/
def c8ClaimedVisit (chain : List CatalogEntry) : Option CatalogEntry :=
  chain.find? (fun v => decide (v.timestamp < TRANSACTION_ID_START) && !v.deleted)

/-- Concrete snapshot used by the witnesses: a live transaction. -/
def wtx : CatalogTransaction :=
  { transaction_id := TRANSACTION_ID_START + 7, start_time := 3,
    hasTransaction := true, hasContext := true }

/-- Concrete empty non-system, non-temporary catalog set used by the witnesses. -/
def wst0 : CatalogSetState :=
  { entries := [], defaults := none, isSystemCatalog := false, isTemporaryCatalog := false }

/-- Concrete candidate objects used by the witnesses and scenario conjuncts. -/
def wA : CatalogEntry :=
  { name := "t1", type := CatalogType.table, internal := false, temporary := false,
    deleted := false, timestamp := 0 }

def wB : CatalogEntry :=
  { name := "t1", type := CatalogType.view, internal := false, temporary := false,
    deleted := false, timestamp := 0 }

/-- Concrete chain for the C8 counterexample: a committed tombstone (a
committed drop awaiting cleanup) above a committed live version. -/
def wTomb : CatalogEntry :=
  { name := "t", type := CatalogType.deletedEntry, internal := false, temporary := false,
    deleted := true, timestamp := 10 }

def wLive : CatalogEntry :=
  { name := "t", type := CatalogType.table, internal := false, temporary := false,
    deleted := false, timestamp := 5 }

def wstC8 : CatalogSetState :=
  { entries := [("t", [wTomb, wLive])], defaults := none,
    isSystemCatalog := false, isTemporaryCatalog := false }

/-- Concrete temporary catalog and candidate for the C7 counterexample. -/
def wstTemp : CatalogSetState :=
  { entries := [], defaults := none, isSystemCatalog := false, isTemporaryCatalog := true }

def wVTemp : CatalogEntry :=
  { name := "x", type := CatalogType.table, internal := false, temporary := false,
    deleted := false, timestamp := 0 }

/-- Concrete later snapshot used by the witnesses: started at time 7, after the
committed versions below but before any uncommitted one. -/
def w2tx : CatalogTransaction :=
  { transaction_id := TRANSACTION_ID_START + 1, start_time := 7,
    hasTransaction := true, hasContext := true }

/-- Concrete committed tombstone heading a chain for the name `t1`. -/
def wTombT1 : CatalogEntry :=
  { name := "t1", type := CatalogType.deletedEntry, internal := false, temporary := false,
    deleted := true, timestamp := 2 }

/-- Concrete set whose only chain for `t1` is headed by a committed tombstone. -/
def wstDel : CatalogSetState :=
  { entries := [("t1", [wTombT1])], defaults := none,
    isSystemCatalog := false, isTemporaryCatalog := false }

/-- Concrete committed live entries under the names `a` and `b`. -/
def wEntA : CatalogEntry :=
  { name := "a", type := CatalogType.table, internal := false, temporary := false,
    deleted := false, timestamp := 2 }

def wEntB : CatalogEntry :=
  { name := "b", type := CatalogType.table, internal := false, temporary := false,
    deleted := false, timestamp := 2 }

/-- Concrete replacement object carrying the destination name `b` (a rename). -/
def wEntRenamed : CatalogEntry :=
  { name := "b", type := CatalogType.table, internal := false, temporary := false,
    deleted := false, timestamp := 0 }

/-- Concrete set holding live committed chains for both `a` and `b`. -/
def wstAB : CatalogSetState :=
  { entries := [("a", [wEntA]), ("b", [wEntB])], defaults := none,
    isSystemCatalog := false, isTemporaryCatalog := false }

/-- Concrete set holding only the live committed chain for `a`. -/
def wstA : CatalogSetState :=
  { entries := [("a", [wEntA])], defaults := none,
    isSystemCatalog := false, isTemporaryCatalog := false }

/-- Chain-revival scenario: create `t1`, drop it, create it again, all inside
the single live transaction `wtx`, starting from the empty set. -/
def wCreateA : MutationResult := CreateEntry wtx wst0 "t1" wA

def wDropA : MutationResult := DropEntry wtx wCreateA.state "t1" false

def wCreateB : MutationResult := CreateEntry wtx wDropA.state "t1" wB

section Lemmas

/-- `List.find?` only depends on the predicate's values on the list. -/
theorem findCongr {α : Type} {p q : α → Bool} :
    ∀ (l : List α), (∀ a ∈ l, p a = q a) → l.find? p = l.find? q
  | [], _ => rfl
  | a :: l, h => by
    have ha : p a = q a := h a (by simp)
    simp only [List.find?]
    rw [ha]
    cases q a
    · exact findCongr l (fun b hb => h b (by simp [hb]))
    · rfl

/-- When the chain contains a visible version, the visibility walk stops at the
first one. -/
theorem getEntryForTransaction_eq_find (transaction : CatalogTransaction) :
    ∀ (chain : List CatalogEntry) (e : CatalogEntry),
      chain.find? (fun v => UseTimestamp transaction v.timestamp) = some e →
      GetEntryForTransaction transaction chain = some e
  | [], _, h => by simp at h
  | [a], e, h => by
    simp only [List.find?] at h
    cases hu : UseTimestamp transaction a.timestamp <;> rw [hu] at h
    · simp at h
    · simp only [Option.some.injEq] at h
      simp [GetEntryForTransaction, h]
  | a :: b :: rest, e, h => by
    simp only [List.find?] at h
    cases hu : UseTimestamp transaction a.timestamp <;> rw [hu] at h
    · simp only [GetEntryForTransaction, hu, Bool.false_eq_true, if_false]
      exact getEntryForTransaction_eq_find transaction (b :: rest) e h
    · simp only [Option.some.injEq] at h
      subst h
      simp [GetEntryForTransaction, hu]

/-- The committed walk returns the newest committed version, or the oldest
version of the chain when none is committed. -/
theorem getCommittedEntry_eq_find :
    ∀ (chain : List CatalogEntry),
      GetCommittedEntry chain =
        (match chain.find? (fun v => decide (v.timestamp < TRANSACTION_ID_START)) with
         | some e => some e
         | none => chain.getLast?)
  | [] => rfl
  | [a] => by
    simp only [GetCommittedEntry, List.find?]
    cases h : decide (a.timestamp < TRANSACTION_ID_START) <;> simp [h]
  | a :: b :: rest => by
    cases h : decide (a.timestamp < TRANSACTION_ID_START)
    · rw [List.find?_cons_of_neg _ (by simp [h]), List.getLast?_cons_cons,
        ← getCommittedEntry_eq_find (b :: rest)]
      simp [GetCommittedEntry, h]
    · rw [List.find?_cons_of_pos _ (by simp [h])]
      simp [GetCommittedEntry, h]

/-- `List.filterMap` only depends on the function's values on the list. -/
theorem filterMapCongr {α β : Type} (f g : α → Option β) :
    ∀ (l : List α), (∀ a ∈ l, f a = g a) → l.filterMap f = l.filterMap g
  | [], _ => rfl
  | a :: l, h => by
    simp only [List.filterMap_cons]
    rw [h a (by simp), filterMapCongr f g l (fun b hb => h b (by simp [hb]))]

/-- Looking a name up past a prefix that does not contain it. -/
theorem mapGetEntry_append_right (m l : Dir) (n : String) (h : mapGetEntry m n = none) :
    mapGetEntry (m ++ l) n = mapGetEntry l n := by
  induction m with
  | nil => simp
  | cons kv rest ih =>
    simp only [mapGetEntry] at h
    simp only [List.cons_append, mapGetEntry]
    by_cases hk : kv.fst = n
    · rw [if_pos hk] at h; cases h
    · rw [if_neg hk] at h ⊢
      exact ih h

/-- Replacing the chain of a name found only in the appended singleton. -/
theorem dirReplace_append_single (m : Dir) (n : String) (c c' : List CatalogEntry)
    (h : mapGetEntry m n = none) :
    dirReplace (m ++ [(n, c)]) n c' = m ++ [(n, c')] := by
  induction m with
  | nil => simp [dirReplace]
  | cons kv rest ih =>
    simp only [mapGetEntry] at h
    simp only [List.cons_append, dirReplace]
    by_cases hk : kv.fst = n
    · rw [if_pos hk] at h; cases h
    · rw [if_neg hk] at h
      rw [if_neg hk]
      exact congrArg (kv :: ·) (ih h)

/-- Dropping a node of a name found only in the appended singleton. -/
theorem mapDropEntryAt_append_single (m : Dir) (n : String) (c : List CatalogEntry) (i : Nat)
    (h : mapGetEntry m n = none) :
    mapDropEntryAt (m ++ [(n, c)]) n i =
      m ++ (if (c.eraseIdx i).isEmpty then [] else [(n, c.eraseIdx i)]) := by
  induction m with
  | nil =>
    simp only [List.nil_append, mapDropEntryAt, if_pos rfl]
    split <;> simp_all
  | cons kv rest ih =>
    simp only [mapGetEntry] at h
    simp only [List.cons_append, mapDropEntryAt]
    by_cases hk : kv.fst = n
    · rw [if_pos hk] at h; cases h
    · rw [if_neg hk] at h
      rw [if_neg hk]
      exact congrArg (kv :: ·) (ih h)

/-- Looking a name up after its chain was replaced. -/
theorem mapGetEntry_dirReplace_self (m : Dir) (n : String) (c c' : List CatalogEntry)
    (h : mapGetEntry m n = some c) :
    mapGetEntry (dirReplace m n c') n = some c' := by
  induction m with
  | nil => simp [mapGetEntry] at h
  | cons kv rest ih =>
    simp only [mapGetEntry] at h
    simp only [dirReplace]
    by_cases hk : kv.fst = n
    · rw [if_pos hk]
      simp [mapGetEntry]
    · rw [if_neg hk] at h
      rw [if_neg hk]
      simp only [mapGetEntry, if_neg hk]
      exact ih h

end Lemmas

/-- C2: `HasConflict(snapshot, ts)` holds iff `ts` is a transaction-local
(uncommitted, at/above the reserved threshold) id different from the
snapshot's transaction id, or a committed timestamp strictly greater than the
snapshot's start time; and a create/alter/drop operation that finds the chain
head's timestamp in conflict aborts with a transaction error rather than
retrying or returning false. -/
theorem c2_conflict_rule (transaction : CatalogTransaction) (ts : Nat)
    (st : CatalogSetState) (name : String) (value : CatalogEntry)
    (head : CatalogEntry) (rest : List CatalogEntry)
    (alter_info : AlterInfo) (alterFn : CatalogEntry → Option CatalogEntry)
    (allow : Bool) (ttype : CatalogType)
    (hc : mapGetEntry st.entries name = some (head :: rest))
    (hval : validateCreateEntry st name value = Except.ok ())
    (hconf : HasConflict transaction head.timestamp = true) :
    (HasConflict transaction ts = true ↔
      ((TRANSACTION_ID_START ≤ ts ∧ ts ≠ transaction.transaction_id) ∨
       (ts < TRANSACTION_ID_START ∧ transaction.start_time < ts)))
    ∧ (∃ msg, (CreateEntry transaction st name value).result =
        Except.error (CatalogError.transactionConflict msg))
    ∧ (∃ msg, GetEntryInternalByName transaction st name =
        Except.error (CatalogError.transactionConflict msg))
    ∧ (∃ msg, (AlterEntry transaction st name alter_info alterFn).result =
        Except.error (CatalogError.transactionConflict msg))
    ∧ (∃ msg, (DropEntryInternal transaction st name allow ttype).result =
        Except.error (CatalogError.transactionConflict msg)) := by
  have hget : GetEntryInternalByName transaction st name =
      Except.error (CatalogError.transactionConflict
        ("Catalog write-write conflict on alter with \"" ++ head.name ++ "\"")) := by
    simp only [GetEntryInternalByName, hc, GetEntryInternalEntry, hconf, if_true]
  refine ⟨?_, ?_, ⟨_, hget⟩, ?_, ?_⟩
  · simp only [HasConflict, Bool.or_eq_true, Bool.and_eq_true, decide_eq_true_eq,
      ge_iff_le, gt_iff_lt]
  · simp only [CreateEntry, hval, hc, hconf, if_true]
    exact ⟨_, rfl⟩
  · simp only [AlterEntry, hget]
    exact ⟨_, rfl⟩
  · simp only [DropEntryInternal, hget]
    exact ⟨_, rfl⟩

/-- C2 witness: the conflict rule and the abort behaviour at a concrete
snapshot and a concretely conflicting chain head. -/
theorem c2_conflict_rule_witness :
    (HasConflict w2tx 42 = true ↔
      ((TRANSACTION_ID_START ≤ 42 ∧ 42 ≠ w2tx.transaction_id) ∨
       (42 < TRANSACTION_ID_START ∧ w2tx.start_time < 42)))
    ∧ (∃ msg, (CreateEntry w2tx wstC8 "t" wA).result =
        Except.error (CatalogError.transactionConflict msg))
    ∧ (∃ msg, GetEntryInternalByName w2tx wstC8 "t" =
        Except.error (CatalogError.transactionConflict msg))
    ∧ (∃ msg, (AlterEntry w2tx wstC8 "t" ⟨true⟩ (fun _ => none)).result =
        Except.error (CatalogError.transactionConflict msg))
    ∧ (∃ msg, (DropEntryInternal w2tx wstC8 "t" false CatalogType.deletedEntry).result =
        Except.error (CatalogError.transactionConflict msg)) :=
  c2_conflict_rule w2tx 42 wstC8 "t" wA wTomb [wLive] ⟨true⟩ (fun _ => none) false
    CatalogType.deletedEntry (by decide) (by decide) (by decide)

/-- C7 counterexample: a non-internal, non-temporary candidate named `x` in a
temporary (non-system) catalog satisfies none of the claim's three violation
conditions, yet `CreateEntry`'s validation raises an error (an
`InvalidInputException`), so the claim's "in every other case validation
passes" is false on the code. -/
theorem c7_counterexample :
    c7ClaimedViolation wstTemp "x" wVTemp = false ∧
    validateCreateEntry wstTemp "x" wVTemp =
      Except.error (CatalogError.invalidInput
        "Cannot create non-temporary entry \"x\" in temporary catalog") ∧
    (CreateEntry wtx wstTemp "x" wVTemp).result =
      Except.error (CatalogError.invalidInput
        "Cannot create non-temporary entry \"x\" in temporary catalog") := by
  exact ⟨by decide, by decide, by decide⟩

/-- C7 amended: `CreateEntry`'s validation passes exactly when none of these
holds — internal candidate outside the system catalog with a name other than
the default schema; non-internal non-temporary candidate in the system catalog
that is not a dependency-bookkeeping object; non-internal temporary candidate
in a non-temporary catalog; or (raising an invalid-input rather than an
invariant-violation error) non-internal non-temporary candidate in a temporary
catalog with a name other than the default schema.  The error taxonomy is
exact: an `InternalException` (fatal invariant violation) is raised iff one of
the first three clauses holds, and an `InvalidInputException` is raised iff the
fourth clause holds and none of the first three does. -/
theorem c7_validation_amended (st : CatalogSetState) (name : String) (value : CatalogEntry) :
    (validateCreateEntry st name value = Except.ok () ↔
      validationViolationAmended st name value = false)
    ∧ ((∃ msg, validateCreateEntry st name value =
          Except.error (CatalogError.internalErr msg)) ↔
      invariantViolationAmended st name value = true)
    ∧ ((∃ msg, validateCreateEntry st name value =
          Except.error (CatalogError.invalidInput msg)) ↔
      (invariantViolationAmended st name value = false ∧
       invalidInputViolationAmended st name value = true)) := by
  obtain ⟨en, et, ei, etemp, ed, ets⟩ := value
  obtain ⟨se, sd, ssys, stemp⟩ := st
  simp only [validateCreateEntry, validationViolationAmended, invariantViolationAmended,
    invalidInputViolationAmended, IsDependencyEntry]
  cases ei <;> cases etemp <;> cases ssys <;> cases stemp <;>
    cases hname : (name != DEFAULT_SCHEMA) <;>
    cases hdep : (et == CatalogType.dependencyEntry || et == CatalogType.dependencySet) <;>
    simp_all

/-- C8 counterexample: on a chain whose head is a committed tombstone above a
committed live version, the untransacted scan visits nothing, although the
chain does contain a newest version that has a committed timestamp and is
non-deleted (which the claim says the visitor is invoked on). -/
theorem c8_counterexample :
    ScanCommitted wstC8 = [] ∧
    c8ClaimedVisit [wTomb, wLive] = some wLive := by
  exact ⟨by decide, by decide⟩

/-- C8 amended: per chain, the untransacted scan finds the newest version with
a committed timestamp — or, when no version is committed, the oldest version —
and invokes the visitor on it iff that version is non-deleted; nothing else of
the chain is visited. -/
theorem c8_scan_amended (st : CatalogSetState) :
    ScanCommitted st = st.entries.filterMap (fun kv =>
      match kv.snd.find? (fun v => decide (v.timestamp < TRANSACTION_ID_START)) with
      | some e => if e.deleted then none else some e
      | none =>
        match kv.snd.getLast? with
        | some e => if e.deleted then none else some e
        | none => none) := by
  unfold ScanCommitted
  apply filterMapCongr
  intro kv _
  rw [getCommittedEntry_eq_find]
  cases hf : kv.snd.find? (fun v => decide (v.timestamp < TRANSACTION_ID_START))
  · cases hl : kv.snd.getLast? <;> simp [hf, hl]
  · simp [hf]

/-- C9: when the object's own alter capability declines (returns no
replacement), `AlterEntry` reports success and performs no change at all: the
state is returned untouched, nothing is pushed to the undo log, and no
`UndoAlter` is invoked. -/
theorem c9_alter_decline_noop (transaction : CatalogTransaction) (st : CatalogSetState)
    (name : String) (alter_info : AlterInfo) (alterFn : CatalogEntry → Option CatalogEntry)
    (entry : CatalogEntry) (rest : List CatalogEntry)
    (hc : mapGetEntry st.entries name = some (entry :: rest))
    (hnoconf : HasConflict transaction entry.timestamp = false)
    (hnotdel : entry.deleted = false)
    (hint : (!alter_info.allow_internal && entry.internal) = false)
    (hctx : transaction.hasContext = true)
    (hdecline : alterFn entry = none) :
    AlterEntry transaction st name alter_info alterFn =
      ⟨Except.ok true, st, [], false⟩ := by
  have hget : GetEntryInternalByName transaction st name = Except.ok (some entry) := by
    simp only [GetEntryInternalByName, hc, GetEntryInternalEntry, hnoconf, hnotdel,
      Bool.false_eq_true, if_false]
  simp only [AlterEntry, hget, hint, Bool.false_eq_true, if_false, hctx, Bool.not_true,
    hdecline]

/-- C9 witness: a declined alter on the concrete committed live chain for `a`
is a reported success with nothing changed. -/
theorem c9_alter_decline_noop_witness :
    AlterEntry wtx wstA "a" ⟨true⟩ (fun _ => none) = ⟨Except.ok true, wstA, [], false⟩ :=
  c9_alter_decline_noop wtx wstA "a" ⟨true⟩ (fun _ => none) wEntA [] (by decide) (by decide)
    (by decide) (by decide) (by decide) (by decide)

/-- C10: `CleanupEntry` unconditionally dereferences the node's parent link,
so cleaning up a node with no parent (the chain head, index 0) is undefined
(modelled as `none`); under the precondition that the node has a parent (index
`j + 1` inside its chain), cleanup always completes: the unlink and the
conditional removal of a childless, parentless tombstone parent reach a defined
state. -/
theorem c10_cleanup_parent_precondition (st : CatalogSetState) (name : String)
    (chain : List CatalogEntry) (j : Nat) (x : CatalogEntry)
    (hc : mapGetEntry st.entries name = some chain)
    (hx : chain.get? (j + 1) = some x) :
    CleanupEntry st name 0 = none ∧
    ∃ st2, CleanupEntry st name (j + 1) = some st2 := by
  constructor
  · simp only [CleanupEntry, hc]
  · obtain ⟨h1, -⟩ := List.get?_eq_some.mp hx
    have hj : j < chain.length := Nat.lt_of_succ_lt h1
    simp only [CleanupEntry, hc, hx, List.get?_eq_get hj]
    split <;> exact ⟨_, rfl⟩

/-- C10 witness: on the concrete two-node chain for `t`, cleanup of the head is
undefined while cleanup of the node below the head completes. -/
theorem c10_cleanup_parent_precondition_witness :
    CleanupEntry wstC8 "t" 0 = none ∧ ∃ st2, CleanupEntry wstC8 "t" 1 = some st2 :=
  c10_cleanup_parent_precondition wstC8 "t" [wTomb, wLive] 0 wLive (by decide) (by decide)

/-- C1: for a snapshot whose start time respects the reserved threshold,
`GetEntry` resolves a name whose chain contains a visible version — one whose
timestamp equals the snapshot's transaction id (self-authored) or is committed
strictly before the snapshot's start time — to the first such version from the
head; if that version is a tombstone the name is absent, otherwise that version
is returned.  Since visibility ignores commits at or after the snapshot's start
time, a snapshot started before a later commit keeps resolving to the
pre-change version (or absent). -/
theorem c1_getEntry_visibility (transaction : CatalogTransaction) (st : CatalogSetState)
    (name : String) (chain : List CatalogEntry) (e : CatalogEntry)
    (hstart : transaction.start_time ≤ TRANSACTION_ID_START)
    (hc : mapGetEntry st.entries name = some chain)
    (hfind : chain.find? (specVisible transaction) = some e) :
    (GetEntry transaction st name).1 = if e.deleted then none else some e := by
  have hpq : ∀ a ∈ chain, specVisible transaction a = UseTimestamp transaction a.timestamp := by
    intro a _
    unfold specVisible UseTimestamp
    by_cases h1 : a.timestamp < transaction.start_time
    · have h2 : a.timestamp < TRANSACTION_ID_START := lt_of_lt_of_le h1 hstart
      simp [h1, h2]
    · simp [h1]
  have hwalk : GetEntryForTransaction transaction chain = some e := by
    apply getEntryForTransaction_eq_find
    rw [← findCongr (p := specVisible transaction)
      (q := fun v => UseTimestamp transaction v.timestamp) chain hpq]
    exact hfind
  simp only [GetEntry, hc, hwalk]

/-- C1 witness: a snapshot started at time 7 resolves the chain whose head is a
still-invisible committed tombstone (commit time 10) to the older live version
committed at time 5. -/
theorem c1_getEntry_visibility_witness :
    (GetEntry w2tx wstC8 "t").1 = if wLive.deleted then none else some wLive :=
  c1_getEntry_visibility w2tx wstC8 "t" [wTomb, wLive] wLive (by decide) (by decide) (by decide)

/-- C5: when an alter changes the name and the destination name resolves, for
this snapshot, to a live (non-deleted) version, `AlterEntry` calls `UndoAlter`
on the source object and raises a fatal rename-target-exists error, returning
the state exactly as it was: no version is published under either name and
nothing is pushed to the undo log. -/
theorem c5_rename_collision (transaction : CatalogTransaction) (st : CatalogSetState)
    (name : String) (alter_info : AlterInfo) (alterFn : CatalogEntry → Option CatalogEntry)
    (entry : CatalogEntry) (rest : List CatalogEntry) (v : CatalogEntry)
    (destChain : List CatalogEntry) (oe : CatalogEntry)
    (hc : mapGetEntry st.entries name = some (entry :: rest))
    (hnoconf : HasConflict transaction entry.timestamp = false)
    (hnotdel : entry.deleted = false)
    (hint : (!alter_info.allow_internal && entry.internal) = false)
    (hctx : transaction.hasContext = true)
    (halter : alterFn entry = some v)
    (hnc : v.name ≠ entry.name)
    (hdest : mapGetEntry st.entries v.name = some destChain)
    (hvis : GetEntryForTransaction transaction destChain = some oe)
    (hlive : oe.deleted = false) :
    AlterEntry transaction st name alter_info alterFn =
      ⟨Except.error (CatalogError.catalogErr ("Could not rename \"" ++ entry.name ++
        "\" to \"" ++ v.name ++ "\": another entry with this name already exists!")),
       st, [], true⟩ := by
  have hget : GetEntryInternalByName transaction st name = Except.ok (some entry) := by
    simp only [GetEntryInternalByName, hc, GetEntryInternalEntry, hnoconf, hnotdel,
      Bool.false_eq_true, if_false]
  simp only [AlterEntry, hget, hint, Bool.false_eq_true, if_false, hctx, Bool.not_true,
    halter, hdest, hvis, hlive, Bool.not_false, if_true, hnc, ne_eq, not_false_eq_true,
    if_pos]

/-- C5 witness: renaming the concrete live `a` onto the concretely occupied
name `b` fails with the rename error and changes nothing. -/
theorem c5_rename_collision_witness :
    AlterEntry wtx wstAB "a" ⟨true⟩ (fun _ => some wEntRenamed) =
      ⟨Except.error (CatalogError.catalogErr ("Could not rename \"" ++ wEntA.name ++
        "\" to \"" ++ wEntRenamed.name ++ "\": another entry with this name already exists!")),
       wstAB, [], true⟩ :=
  c5_rename_collision wtx wstAB "a" ⟨true⟩ (fun _ => some wEntRenamed) wEntA [] wEntRenamed
    [wEntB] wEntB (by decide) (by decide) (by decide) (by decide) (by decide) (by decide)
    (by decide) (by decide) (by decide) (by decide)

/-- C3: when `CreateEntry` finds an existing chain, its outcome is exactly:
a transaction-conflict error when the head's timestamp conflicts with the
snapshot; `false` with no state change when there is no conflict and the head
is not deleted; otherwise (head deleted) the candidate is published as the new
head with the snapshot's transaction id as timestamp and, when the snapshot
carries an active transaction, the superseded head is pushed to the undo log —
and concretely, Create, Drop, Create of one name inside one live transaction
succeeds and resolves to the second candidate. -/
theorem c3_create_existing_chain (transaction : CatalogTransaction) (st : CatalogSetState)
    (name : String) (value cur : CatalogEntry) (rest : List CatalogEntry)
    (hc : mapGetEntry st.entries name = some (cur :: rest))
    (hval : validateCreateEntry st name value = Except.ok ())
    (hname : value.name = name) :
    (HasConflict transaction cur.timestamp = true →
      CreateEntry transaction st name value =
        ⟨Except.error (CatalogError.transactionConflict
          ("Catalog write-write conflict on create with \"" ++ cur.name ++ "\"")), st, []⟩)
    ∧ (HasConflict transaction cur.timestamp = false → cur.deleted = false →
      CreateEntry transaction st name value = ⟨Except.ok false, st, []⟩)
    ∧ (HasConflict transaction cur.timestamp = false → cur.deleted = true →
      CreateEntry transaction st name value =
        ⟨Except.ok true,
         { st with entries := dirReplace st.entries name ({ value with timestamp := transaction.transaction_id } :: cur :: rest) },
         if transaction.hasTransaction then [cur] else []⟩)
    ∧ (wCreateA.result = Except.ok true ∧ wDropA.result = Except.ok true ∧
       wCreateB.result = Except.ok true ∧
       (GetEntry wtx wCreateB.state "t1").1 =
         some { wB with timestamp := wtx.transaction_id }) := by
  have hname2 : ({ value with timestamp := transaction.transaction_id } : CatalogEntry).name =
      name := hname
  refine ⟨?_, ?_, ?_, by decide, by decide, by decide, by decide⟩
  · intro hconf
    simp only [CreateEntry, hval, hc, hconf, if_true]
  · intro hconf hdel
    simp only [CreateEntry, hval, hc, hconf, Bool.false_eq_true, if_false, hdel,
      Bool.not_false, if_true]
  · intro hconf hdel
    simp only [CreateEntry, hval, hc, hconf, Bool.false_eq_true, if_false, hdel,
      Bool.not_true, publishEntry, hname2, hname, List.take]

/-- C3 witness: creating on the concrete chain whose head is a committed,
non-conflicting tombstone publishes the candidate above the tombstone and
pushes the tombstone to the live transaction's undo log. -/
theorem c3_create_existing_chain_witness :
    CreateEntry wtx wstDel "t1" wA =
      ⟨Except.ok true,
       { wstDel with entries := dirReplace wstDel.entries "t1" ({ wA with timestamp := wtx.transaction_id } :: wTombT1 :: []) },
       if wtx.hasTransaction then [wTombT1] else []⟩ :=
  (c3_create_existing_chain wtx wstDel "t1" wA wTombT1 [] (by decide) (by decide)
    (by decide)).2.2.1 (by decide) (by decide)

/-- C4: `CreateEntry` on a name with no chain and no default materialization
first inserts a placeholder tombstone (timestamp 0, deleted) at the bottom of
the new chain and publishes the candidate above it, so any snapshot that
cannot yet use the candidate's timestamp resolves the name to the placeholder
tombstone and sees the name as absent. -/
theorem c4_create_fresh_placeholder (transaction tx2 : CatalogTransaction)
    (st : CatalogSetState) (name : String) (value : CatalogEntry)
    (habs : mapGetEntry st.entries name = none)
    (hdef : CreateDefaultEntry transaction st name = (none, st))
    (hval : validateCreateEntry st name value = Except.ok ())
    (hname : value.name = name) :
    (CreateEntry transaction st name value).result = Except.ok true
    ∧ mapGetEntry (CreateEntry transaction st name value).state.entries name =
        some [{ value with timestamp := transaction.transaction_id }, dummyNode name]
    ∧ (UseTimestamp tx2 transaction.transaction_id = false →
        GetEntryForTransaction tx2
          [{ value with timestamp := transaction.transaction_id }, dummyNode name] =
          some (dummyNode name)
        ∧ (GetEntry tx2 (CreateEntry transaction st name value).state name).1 = none) := by
  have hname2 : ({ value with timestamp := transaction.transaction_id } : CatalogEntry).name =
      name := hname
  have hadd : mapAddEntry st.entries (dummyNode name) =
      Except.ok (st.entries ++ [(name, [dummyNode name])]) := by
    have hdn : (dummyNode name).name = name := rfl
    simp only [mapAddEntry, hdn, habs]
  have hsingle : mapGetEntry ([(name, [dummyNode name])] : Dir) name =
      some [dummyNode name] := by
    simp [mapGetEntry]
  have hCE : CreateEntry transaction st name value =
      ⟨Except.ok true,
       { st with entries := st.entries ++
           [(name, [{ value with timestamp := transaction.transaction_id }, dummyNode name])] },
       if transaction.hasTransaction then [dummyNode name] else []⟩ := by
    simp only [CreateEntry, hval, habs, hdef, hadd, publishEntry, hname2, hname,
      mapGetEntry_append_right st.entries _ name habs, hsingle,
      dirReplace_append_single st.entries name _ _ habs, List.take]
  have hlook : mapGetEntry (st.entries ++
      [(name, [{ value with timestamp := transaction.transaction_id }, dummyNode name])]) name =
      some [{ value with timestamp := transaction.transaction_id }, dummyNode name] := by
    rw [mapGetEntry_append_right st.entries _ name habs]
    simp [mapGetEntry]
  refine ⟨by rw [hCE], by rw [hCE]; exact hlook, ?_⟩
  intro hu
  have hts : ({ value with timestamp := transaction.transaction_id } : CatalogEntry).timestamp =
      transaction.transaction_id := rfl
  have hwalk : GetEntryForTransaction tx2
      [{ value with timestamp := transaction.transaction_id }, dummyNode name] =
      some (dummyNode name) := by
    simp only [GetEntryForTransaction, hts, hu, Bool.false_eq_true, if_false]
  refine ⟨hwalk, ?_⟩
  rw [hCE]
  have hdel : (dummyNode name).deleted = true := rfl
  simp only [GetEntry, hlook, hwalk, hdel, if_true]

/-- C4 witness: the fresh creation of `t1` in the empty set, observed by a
later independent snapshot that cannot use the creating transaction's id. -/
theorem c4_create_fresh_placeholder_witness :
    (CreateEntry wtx wst0 "t1" wA).result = Except.ok true
    ∧ mapGetEntry (CreateEntry wtx wst0 "t1" wA).state.entries "t1" =
        some [{ wA with timestamp := wtx.transaction_id }, dummyNode "t1"]
    ∧ (UseTimestamp w2tx wtx.transaction_id = false →
        GetEntryForTransaction w2tx
          [{ wA with timestamp := wtx.transaction_id }, dummyNode "t1"] =
          some (dummyNode "t1")
        ∧ (GetEntry w2tx (CreateEntry wtx wst0 "t1" wA).state "t1").1 = none) :=
  c4_create_fresh_placeholder wtx w2tx wst0 "t1" wA (by decide) (by decide) (by decide)
    (by decide)

/-- C6: after `CreateEntry` succeeds on a previously nonexistent name (with no
default generator) and `Undo` is applied to the node that was pushed to the
undo log (the placeholder, the created head's child), the directory holds no
chain for the name at all — the created version is unlinked and, the restored
node being the original placeholder root, the placeholder is unlinked too —
and a fresh snapshot's `GetEntry` returns absent, as if the create never
happened. -/
theorem c6_undo_create_roundtrip (transaction tx2 : CatalogTransaction)
    (st : CatalogSetState) (name : String) (value : CatalogEntry)
    (hdefaults : st.defaults = none)
    (habs : mapGetEntry st.entries name = none)
    (hval : validateCreateEntry st name value = Except.ok ())
    (hname : value.name = name)
    (htr : transaction.hasTransaction = true) :
    (CreateEntry transaction st name value).result = Except.ok true
    ∧ (CreateEntry transaction st name value).undoLog = [dummyNode name]
    ∧ ∃ st2, Undo (CreateEntry transaction st name value).state name 1 = some st2
        ∧ st2.entries = st.entries
        ∧ mapGetEntry st2.entries name = none
        ∧ (GetEntry tx2 st2 name).1 = none := by
  have hdef : CreateDefaultEntry transaction st name = (none, st) := by
    simp only [CreateDefaultEntry, hdefaults]
  obtain ⟨h1, h2, -⟩ := c4_create_fresh_placeholder transaction tx2 st name value habs hdef
    hval hname
  have hname2 : ({ value with timestamp := transaction.transaction_id } : CatalogEntry).name =
      name := hname
  have hadd : mapAddEntry st.entries (dummyNode name) =
      Except.ok (st.entries ++ [(name, [dummyNode name])]) := by
    have hdn : (dummyNode name).name = name := rfl
    simp only [mapAddEntry, hdn, habs]
  have hsingle : mapGetEntry ([(name, [dummyNode name])] : Dir) name =
      some [dummyNode name] := by
    simp [mapGetEntry]
  have hCE : CreateEntry transaction st name value =
      ⟨Except.ok true,
       { st with entries := st.entries ++
           [(name, [{ value with timestamp := transaction.transaction_id }, dummyNode name])] },
       if transaction.hasTransaction then [dummyNode name] else []⟩ := by
    simp only [CreateEntry, hval, habs, hdef, hadd, publishEntry, hname2, hname,
      mapGetEntry_append_right st.entries _ name habs, hsingle,
      dirReplace_append_single st.entries name _ _ habs, List.take]
  have hlook : mapGetEntry (st.entries ++
      [(name, [{ value with timestamp := transaction.transaction_id }, dummyNode name])]) name =
      some [{ value with timestamp := transaction.transaction_id }, dummyNode name] := by
    rw [mapGetEntry_append_right st.entries _ name habs]
    simp [mapGetEntry]
  have hdrop1 : mapDropEntryAt (st.entries ++
      [(name, [{ value with timestamp := transaction.transaction_id }, dummyNode name])])
      name 0 = st.entries ++ [(name, [dummyNode name])] := by
    rw [mapDropEntryAt_append_single st.entries name _ 0 habs]
    rfl
  have hdrop2 : mapDropEntryAt (st.entries ++ [(name, [dummyNode name])]) name 0 =
      st.entries ++ [] := by
    rw [mapDropEntryAt_append_single st.entries name _ 0 habs]
    rfl
  have hundo : Undo (CreateEntry transaction st name value).state name 1 =
      some { st with entries := st.entries } := by
    rw [hCE]
    simp only [Undo, hlook, List.get?]
    simp only [hdrop1, hdrop2, List.append_nil]
    have hty : (dummyNode name).type = CatalogType.invalid := rfl
    simp [hty]
  refine ⟨h1, by rw [hCE]; simp [htr], { st with entries := st.entries }, hundo, rfl, habs, ?_⟩
  simp only [GetEntry, habs, CreateDefaultEntry, hdefaults]

/-- C6 witness: the concrete create of `t1` in the empty set followed by
`Undo` of the pushed placeholder leaves no chain for `t1` and a later snapshot
sees the name as absent. -/
theorem c6_undo_create_roundtrip_witness :
    (CreateEntry wtx wst0 "t1" wA).result = Except.ok true
    ∧ (CreateEntry wtx wst0 "t1" wA).undoLog = [dummyNode "t1"]
    ∧ ∃ st2, Undo (CreateEntry wtx wst0 "t1" wA).state "t1" 1 = some st2
        ∧ st2.entries = wst0.entries
        ∧ mapGetEntry st2.entries "t1" = none
        ∧ (GetEntry w2tx st2 "t1").1 = none :=
  c6_undo_create_roundtrip wtx w2tx wst0 "t1" wA (by decide) (by decide) (by decide)
    (by decide) (by decide)

end CatalogSpec
